import Mathlib

/-!
Verification of the tuit terminal-UI library's geometry, buffer and widget layer.

Each definition is a shallow embedding of the corresponding Rust item:
machine integers (`usize`, `u8`, `u16`) are modelled as `Nat` (none of the
verified operations can overflow a 64-bit machine word on the inputs
considered, and Rust panics rather than wraps on underflow in debug mode;
checked subtraction is modelled explicitly where the source uses it),
`Result`/`Option` returns as `Except`/`Option`, and in-place mutation of a
`&mut self` receiver as explicit state passing.  Cell styles are opaque to
every verified operation, so the style type is a type parameter `σ` and the
cell payload type a parameter `α` where only positions matter.
-/

namespace Tuit

/-- Rectangle from src/src/widgets/mod.rs: the two stored corner points
`left_top` and `right_bottom` (y grows downward). -/
structure Rectangle where
  left_top : Nat × Nat
  right_bottom : Nat × Nat
deriving DecidableEq, Repr

/-- Rectangle::left. -/
def Rectangle.left (r : Rectangle) : Nat := r.left_top.1

/-- Rectangle::top. -/
def Rectangle.top (r : Rectangle) : Nat := r.left_top.2

/-- Rectangle::right. -/
def Rectangle.right (r : Rectangle) : Nat := r.right_bottom.1

/-- Rectangle::bottom. -/
def Rectangle.bottom (r : Rectangle) : Nat := r.right_bottom.2

/-- Rectangle::width, `right - left` (truncated subtraction, as in the
`usize` source). -/
def Rectangle.width (r : Rectangle) : Nat := r.right - r.left

/-- Rectangle::height, `bottom - top`. -/
def Rectangle.height (r : Rectangle) : Nat := r.bottom - r.top

/-- Rectangle::dimensions. -/
def Rectangle.dimensions (r : Rectangle) : Nat × Nat := (r.width, r.height)

/-- Rectangle::area. -/
def Rectangle.area (r : Rectangle) : Nat := r.width * r.height

/-- Rectangle::new: normalizes two arbitrary corner points by swapping each
coordinate pair so that the smaller goes to `left_top`. -/
def Rectangle.new (first_point second_point : Nat × Nat) : Rectangle :=
  let first_x := first_point.1
  let first_y := first_point.2
  let second_x := second_point.1
  let second_y := second_point.2
  let x_larger := if first_x > second_x then first_x else second_x
  let x_smaller := if first_x > second_x then second_x else first_x
  let y_larger := if first_y > second_y then first_y else second_y
  let y_smaller := if first_y > second_y then second_y else first_y
  { left_top := (x_smaller, y_smaller), right_bottom := (x_larger, y_larger) }

/-- Rectangle::of_size: top-left anchored at the origin. -/
def Rectangle.of_size (width height : Nat) : Rectangle :=
  { left_top := (0, 0), right_bottom := (width, height) }

/-- Rectangle::right_to.  Source: if `new_edge >= self.left()` set the right
edge only; otherwise set it and then swap the two x-coordinates (Rust's
parallel tuple assignment evaluates its right-hand side first, so the swap
branch ends with `left = new_edge`, `right = old left`). -/
def Rectangle.right_to (r : Rectangle) (new_edge : Nat) : Rectangle :=
  if new_edge ≥ r.left then
    { r with right_bottom := (new_edge, r.right_bottom.2) }
  else
    { r with left_top := (new_edge, r.left_top.2),
             right_bottom := (r.left_top.1, r.right_bottom.2) }

/-- Rectangle::left_to.  Source: if `new_edge <= self.left()` set the left
edge only; otherwise set it and swap, which ends with `left = old right`,
`right = new_edge`. -/
def Rectangle.left_to (r : Rectangle) (new_edge : Nat) : Rectangle :=
  if new_edge ≤ r.left then
    { r with left_top := (new_edge, r.left_top.2) }
  else
    { r with left_top := (r.right_bottom.1, r.left_top.2),
             right_bottom := (new_edge, r.right_bottom.2) }

/-- Rectangle::bottom_to.  Source: if `new_edge >= self.bottom()` set the
bottom edge only; otherwise set it and swap, ending with `top = new_edge`,
`bottom = old top`. -/
def Rectangle.bottom_to (r : Rectangle) (new_edge : Nat) : Rectangle :=
  if new_edge ≥ r.bottom then
    { r with right_bottom := (r.right_bottom.1, new_edge) }
  else
    { r with left_top := (r.left_top.1, new_edge),
             right_bottom := (r.right_bottom.1, r.left_top.2) }

/-- Rectangle::top_to.  Source: if `new_edge <= self.top()` set the top edge
only; otherwise set it and swap, ending with `top = old bottom`,
`bottom = new_edge`. -/
def Rectangle.top_to (r : Rectangle) (new_edge : Nat) : Rectangle :=
  if new_edge ≤ r.top then
    { r with left_top := (r.left_top.1, new_edge) }
  else
    { r with left_top := (r.left_top.1, r.right_bottom.2),
             right_bottom := (r.right_bottom.1, new_edge) }

/-- Rectangle::contains: inclusive comparison against all four edges. -/
def Rectangle.contains (r : Rectangle) (point : Nat × Nat) : Bool :=
  let x := point.1
  let y := point.2
  let x_in_bounds := decide (x ≥ r.left) && decide (x ≤ r.right)
  let y_in_bounds := decide (y ≥ r.top) && decide (y ≤ r.bottom)
  x_in_bounds && y_in_bounds

/-- Rectangle::contains_rect: containment of both stored corners. -/
def Rectangle.contains_rect (r : Rectangle) (rect : Rectangle) : Bool :=
  r.contains (rect.left, rect.top) && r.contains (rect.right, rect.bottom)

/-- Ansi4 colour enumeration from src/src/terminal.rs. -/
inductive Ansi4 where
  | Black
  | Red
  | Green
  | Yellow
  | Blue
  | Magenta
  | Cyan
  | White
  | BrightBlack
  | BrightRed
  | BrightGreen
  | BrightYellow
  | BrightBlue
  | BrightMagenta
  | BrightCyan
  | BrightWhite
deriving DecidableEq, Repr

/-- The discriminant of the `repr(u8)` Ansi4 enum (`self as u8`). -/
def Ansi4.toU8 : Ansi4 → Nat
  | Ansi4.Black => 0
  | Ansi4.Red => 1
  | Ansi4.Green => 2
  | Ansi4.Yellow => 3
  | Ansi4.Blue => 4
  | Ansi4.Magenta => 5
  | Ansi4.Cyan => 6
  | Ansi4.White => 7
  | Ansi4.BrightBlack => 8
  | Ansi4.BrightRed => 9
  | Ansi4.BrightGreen => 10
  | Ansi4.BrightYellow => 11
  | Ansi4.BrightBlue => 12
  | Ansi4.BrightMagenta => 13
  | Ansi4.BrightCyan => 14
  | Ansi4.BrightWhite => 15

/-- The BitOr impl in src/src/terminal.rs: `self as u8 | (rhs as u8) << 4`.
All results fit in 8 bits, so plain `Nat` arithmetic is exact. -/
def Ansi4.bitor_terminal (a rhs : Ansi4) : Nat :=
  a.toU8 ||| (rhs.toU8 <<< 4)

/-- The BitOr impl in src/src/default_impls.rs:
`(self as u8) << 4 | rhs as u8`. -/
def Ansi4.bitor_default_impls (a rhs : Ansi4) : Nat :=
  (a.toU8 <<< 4) ||| rhs.toU8

/-- Error enum from src/src/errors.rs (the `anyhow`-carrying generic
variants are irrelevant to the verified operations and are omitted). -/
inductive Error where
  | Io
  | RenderError
  | OutOfBoundsCharacter (idx : Nat)
  | OutOfBoundsCoordinate (x y : Nat)
  | Todo
deriving DecidableEq, Repr

/-- A terminal cell (TerminalCell in src/src/terminal.rs, Cell in the newer
files): a character plus a style, the latter opaque to all verified code. -/
structure Cell (σ : Type) where
  character : Char
  style : σ
deriving DecidableEq, Repr

/-- Terminal::character from src/src/terminal.rs: flat row-major lookup
`characters().get(width * y + x)` over the terminal's character slice.  The
`character_mut` variant computes the identical index.  Cell values are an
opaque `α`. -/
def Terminal.character (width : Nat) (cells : List α) (x y : Nat) : Option α :=
  cells.get? (width * y + x)

/-- ConstantSizeRef::cell from src/src/terminal/const_size_ref.rs: look the
row up by `y`, then the cell by `x`; `cell_mut` is identical. -/
def ConstantSizeRef.cell (rows : List (List α)) (x y : Nat) : Option α :=
  (rows.get? y).bind (fun row => row.get? x)

/-- MaxSizeTerminal from src/src/terminal.rs: backing storage of
`MAX_HEIGHT` rows of `MAX_WIDTH` cells, a default style, and the active
`dimensions` (width, height). -/
structure MaxSizeTerminal (α σ : Type) where
  characters : List (List α)
  default_style : σ
  dimensions : Nat × Nat
deriving DecidableEq, Repr

/-- MaxSizeTerminal::rescale: reject (returning the offending pair and
leaving the state untouched) if either dimension exceeds the compile-time
maximum, otherwise update only `dimensions`.  The `&mut self` receiver is
modelled by returning the new state alongside the `Result`. -/
def MaxSizeTerminal.rescale (MAXW MAXH : Nat) (t : MaxSizeTerminal α σ)
    (new_width new_height : Nat) :
    Except (Nat × Nat) Unit × MaxSizeTerminal α σ :=
  if new_width > MAXW then
    (Except.error (new_width, new_height), t)
  else if new_height > MAXH then
    (Except.error (new_width, new_height), t)
  else
    (Except.ok (), { t with dimensions := (new_width, new_height) })

/-- MaxSizeTerminal::characters (the body of the `Terminal` impl; named
`characters_method` because the structure field already takes the source
name).  The source is `self.characters[0..acting_height][0..acting_width]
.flatten()`: the first range slices the array of rows, the second range
slices that slice of rows AGAIN (it does not select columns), and Rust
panics — modelled as `none` — when a range end exceeds the sliced length. -/
def MaxSizeTerminal.characters_method (t : MaxSizeTerminal α σ) : Option (List α) :=
  let acting_height := t.dimensions.2
  let acting_width := t.dimensions.1
  if acting_height ≤ t.characters.length then
    let row_slice := t.characters.take acting_height
    if acting_width ≤ row_slice.length then
      some (row_slice.take acting_width).flatten
    else
      none
  else
    none

/-- Specification-side description of `MaxSizeTerminal::characters` for
comparison, following the spec's words: the lazy row-major sequence over the
live region only — the first `height` rows, each truncated to `width`
cells. -/
def MaxSizeTerminal.live_region (t : MaxSizeTerminal α σ) : List α :=
  ((t.characters.take t.dimensions.2).map
    (fun row => row.take t.dimensions.1)).flatten

/-- Text widget from src/src/widgets/builtins/text.rs: the text to display
and the style applied to every written cell. -/
structure Text (σ : Type) where
  text : List Char
  style : σ
deriving DecidableEq, Repr

/-- The loop body of Text::draw: walk the enumerated characters, pulling one
cell from the terminal's row-major cell iterator per character; if the
iterator is exhausted at enumeration index `idx`, fail with
`OutOfBoundsCharacter idx`; otherwise overwrite the cell's character and
style.  Returns the full updated cell sequence. -/
def Text.drawFrom (style : σ) (idx : Nat) :
    List Char → List (Cell σ) → Except Error (List (Cell σ))
  | [], cells => Except.ok cells
  | _ :: _, [] => Except.error (Error.OutOfBoundsCharacter idx)
  | ch :: rest, _ :: cells =>
    match Text.drawFrom style (idx + 1) rest cells with
    | Except.ok done => Except.ok ({ character := ch, style := style } :: done)
    | Except.error e => Except.error e

/-- Text::draw over the terminal's row-major cell sequence (`cells_mut`),
starting at enumeration index 0. -/
def Text.draw (t : Text σ) (cells : List (Cell σ)) :
    Except Error (List (Cell σ)) :=
  Text.drawFrom t.style 0 t.text cells

/-- Rust's `usize::div_ceil` — the source only invokes it with a positive
divisor (a zero divisor panics in Rust and is excluded by hypotheses
wherever this definition is used). -/
def divCeil (a b : Nat) : Nat := (a + b - 1) / b

/-- CenteredText widget from src/src/widgets/builtins/centered_text.rs. -/
structure CenteredText (σ : Type) where
  prompt_text : List Char
  style : σ
deriving DecidableEq, Repr

/-- The rectangle computed by CenteredText::bounding_box: cap the height at
`div_ceil(text_len, terminal_width).min(terminal_height)` and the width at
`text_len.min(terminal_width)`, then centre on `terminal_dim / 2 -
capped_dim / 2` for each axis.  (`bounding_box` itself wraps this in
`Ok`.) -/
def CenteredText.bounding_box_rect (t : CenteredText σ) (rect : Rectangle) :
    Rectangle :=
  let terminal_width := rect.dimensions.1
  let terminal_height := rect.dimensions.2
  let text_len := t.prompt_text.length
  let height := min (divCeil text_len terminal_width) terminal_height
  let width := min text_len terminal_width
  let horizontal_center := terminal_width / 2
  let vertical_center := terminal_height / 2
  let left := horizontal_center - width / 2
  let right := left + width
  let top := vertical_center - height / 2
  let bottom := top + height
  Rectangle.new (left, top) (right, bottom)

/-- CenteredText::bounding_box: the source unconditionally returns
`Ok(Rectangle::new(..))`. -/
def CenteredText.bounding_box (t : CenteredText σ) (rect : Rectangle) :
    Except Error Rectangle :=
  Except.ok (t.bounding_box_rect rect)

/-- Modelled from the spec: the View sub-region projection used by
`CenteredText::draw` through `terminal.view_mut(..)` — the view's source
file is not under src/, only its callers are.  Per spec §4.3 a view
restricts a terminal to a rectangle, reports the rectangle's dimensions and
translates every coordinate by the rectangle's top-left, so its row-major
cell sequence is exactly the cells of the sub-rectangle. -/
def View.cells (grid : List (List α)) (r : Rectangle) : List α :=
  (((grid.drop r.top).take r.height).map
    (fun row => (row.drop r.left).take r.width)).flatten

/-- CenteredText::draw: resolve the bounding box against the terminal's
rectangle, take a view of that region, and draw
`Text::new(prompt_text).styled(style)` into the view.  The terminal is its
grid of rows; the result is the view's updated cell sequence or the first
error. -/
def CenteredText.draw (t : CenteredText σ) (grid : List (List (Cell σ)))
    (rect : Rectangle) : Except Error (List (Cell σ)) :=
  match t.bounding_box rect with
  | Except.error e => Except.error e
  | Except.ok bb => Text.draw (Text.mk t.prompt_text t.style) (View.cells grid bb)

/-- MouseButton from src/src/terminal/interactive.rs. -/
inductive MouseButton where
  | Primary
  | Secondary
  | AuxiliaryButton (n : Nat)
deriving DecidableEq, Repr

/-- KeyState from src/src/terminal/interactive.rs. -/
inductive KeyState where
  | KeyUp
  | KeyDown
  | KeyHeld
deriving DecidableEq, Repr

/-- UpdateInfo from src/src/terminal/interactive.rs.  `Duration` is
abstracted to its nanosecond count. -/
inductive UpdateInfo where
  | CellClicked (x y : Nat) (button : MouseButton)
  | KeyboardCharacter (c : Char) (state : KeyState)
  | KeyboardInput (code : Nat) (state : KeyState)
  | TimeDelta (nanos : Nat)
  | TerminalResized
  | NoInfo
deriving DecidableEq, Repr

/-- Rust's `usize::checked_sub`. -/
def checkedSub (a b : Nat) : Option Nat :=
  if b ≤ a then some (a - b) else none

/-- UpdateInfo::mouse_relative_to: translate a cell click by the
rectangle's top-left via checked subtraction, collapsing to `NoInfo` when
either subtraction underflows; every other variant passes through
unchanged. -/
def UpdateInfo.mouse_relative_to (u : UpdateInfo) (rect : Rectangle) :
    UpdateInfo :=
  match u with
  | UpdateInfo.CellClicked x y button =>
    match checkedSub x rect.left with
    | none => UpdateInfo.NoInfo
    | some x2 =>
      match checkedSub y rect.top with
      | none => UpdateInfo.NoInfo
      | some y2 => UpdateInfo.CellClicked x2 y2 button
  | other => other

/-- A `Result::is_ok` discriminator for `Except`. -/
def exceptIsOk : Except ε β → Bool
  | Except.ok _ => true
  | Except.error _ => false

/-- When there are at least as many cells as characters, the draw loop
succeeds; the written prefix holds the characters (with the widget style)
and the remaining cells are untouched. -/
theorem drawFrom_ok (σ : Type) (style : σ) (text : List Char)
    (cells : List (Cell σ)) (idx : Nat) (h : text.length ≤ cells.length) :
    Text.drawFrom style idx text cells =
      Except.ok (text.map (fun ch => Cell.mk ch style) ++
        cells.drop text.length) := by
  induction text generalizing cells idx with
  | nil => simp [Text.drawFrom]
  | cons ch rest ih =>
    cases cells with
    | nil => simp at h
    | cons c cs =>
      rw [Text.drawFrom, ih cs (idx + 1) (by simpa using h)]
      simp

/-- When the cells run out before the characters do, the draw loop fails at
the enumeration index of the first unwritten character, namely the start
index plus the number of available cells. -/
theorem drawFrom_err (σ : Type) (style : σ) (text : List Char)
    (cells : List (Cell σ)) (idx : Nat) (h : cells.length < text.length) :
    Text.drawFrom style idx text cells =
      Except.error (Error.OutOfBoundsCharacter (idx + cells.length)) := by
  induction text generalizing cells idx with
  | nil => simp at h
  | cons ch rest ih =>
    cases cells with
    | nil => simp [Text.drawFrom]
    | cons c cs =>
      rw [Text.drawFrom, ih cs (idx + 1) (by simpa using h)]
      simp
      omega

/-- For a positive `a` the ceiling division shifts to a floor division of
`a - 1`. -/
theorem divCeil_eq (a b : Nat) (ha : 0 < a) (hb : 0 < b) :
    divCeil a b = (a - 1) / b + 1 := by
  rw [divCeil, show a + b - 1 = (a - 1) + b by omega, Nat.add_div_right _ hb]

/-- Ceiling division rounds up: `b` rows of `divCeil a b` columns hold `a`
items. -/
theorem le_mul_divCeil (a b : Nat) (hb : 0 < b) : a ≤ b * divCeil a b := by
  rcases Nat.eq_zero_or_pos a with ha | ha
  · simp [ha]
  · rw [divCeil_eq a b ha hb, Nat.mul_succ]
    have hd := Nat.div_add_mod (a - 1) b
    have hm := Nat.mod_lt (a - 1) hb
    omega

/-- If `b * c` items are too few to hold `a` items, then `c` rows of width
`b` are too few: `c < divCeil a b`. -/
theorem lt_divCeil_of_mul_lt (a b c : Nat) (hb : 0 < b) (h : b * c < a) :
    c < divCeil a b := by
  by_contra hc
  push_neg at hc
  exact absurd (Nat.le_trans (le_mul_divCeil a b hb) (Nat.mul_le_mul_left b hc))
    (Nat.not_le.mpr h)

/-- Ceiling division of a positive number by a positive number is
positive. -/
theorem divCeil_pos (a b : Nat) (ha : 0 < a) (hb : 0 < b) :
    0 < divCeil a b := by
  rw [divCeil_eq a b ha hb]
  exact Nat.succ_pos _

/-- Normalization is the identity on an already-ordered corner pair. -/
theorem Rectangle.new_of_le {a b c d : Nat} (hac : a ≤ c) (hbd : b ≤ d) :
    Rectangle.new (a, b) (c, d) = Rectangle.mk (a, b) (c, d) := by
  simp only [Rectangle.new]
  rw [if_neg (by omega), if_neg (by omega), if_neg (by omega),
    if_neg (by omega)]

/-- The bounding box of a centered text inside a W-by-H terminal rectangle,
in closed form: the capped width `min len W` and height
`min (divCeil len W) H`, centred at `dim / 2 - capped / 2`. -/
theorem bounding_box_rect_eq (σ : Type) (t : CenteredText σ) (W H : Nat) :
    t.bounding_box_rect (Rectangle.of_size W H) =
      Rectangle.mk
        (W / 2 - min t.prompt_text.length W / 2,
         H / 2 - min (divCeil t.prompt_text.length W) H / 2)
        (W / 2 - min t.prompt_text.length W / 2 + min t.prompt_text.length W,
         H / 2 - min (divCeil t.prompt_text.length W) H / 2 +
           min (divCeil t.prompt_text.length W) H) := by
  simp only [CenteredText.bounding_box_rect, Rectangle.dimensions,
    Rectangle.width, Rectangle.height, Rectangle.left, Rectangle.right,
    Rectangle.top, Rectangle.bottom, Rectangle.of_size, Nat.sub_zero]
  exact Rectangle.new_of_le (Nat.le_add_right _ _) (Nat.le_add_right _ _)

/-- The sum of a constant-valued function over a list. -/
theorem sum_map_const {β : Type _} (l : List β) (g : β → Nat) (c : Nat)
    (h : ∀ x ∈ l, g x = c) : (l.map g).sum = c * l.length := by
  induction l with
  | nil => simp
  | cons a tl ih =>
    rw [List.map_cons, List.sum_cons, h a (List.mem_cons_self a tl),
      ih (fun x hx => h x (List.mem_cons_of_mem a hx)), List.length_cons,
      Nat.mul_succ]
    omega

/-- A view whose rectangle lies inside the grid exposes exactly
`width * height` cells. -/
theorem View.cells_length (grid : List (List α)) (r : Rectangle)
    (hb : r.bottom ≤ grid.length) (htb : r.top ≤ r.bottom)
    (hw : ∀ row ∈ grid, r.right ≤ row.length) (hlr : r.left ≤ r.right) :
    (View.cells grid r).length = r.width * r.height := by
  rw [View.cells, List.length_flatten, List.map_map]
  have hconst : ∀ row ∈ (grid.drop r.top).take r.height,
      (List.length ∘ fun row => (row.drop r.left).take r.width) row = r.width := by
    intro row hrow
    have hmem : row ∈ grid :=
      List.drop_subset r.top grid (List.take_subset r.height _ hrow)
    simp only [Function.comp_apply]
    rw [List.length_take, List.length_drop]
    have hwr := hw row hmem
    unfold Rectangle.width
    omega
  rw [sum_map_const _ _ r.width hconst]
  congr 1
  rw [List.length_take, List.length_drop]
  unfold Rectangle.height
  omega

/-- C1: the claim states that every edge mutator preserves the normalization
invariant `left_top.x <= right_bottom.x` and `left_top.y <= right_bottom.y`.
The code violates it: the guards of `left_to`, `top_to` and `bottom_to`
compare the new coordinate against the edge being moved instead of the
opposite edge, so a new coordinate strictly between the two edges triggers
the swap branch and yields an inverted rectangle.  Evaluating the failing
input: starting from the normalized rectangle (0,0)-(10,10), `top_to 5`
yields top 10 > bottom 5, `left_to 5` yields left 10 > right 5, and
`bottom_to 5` yields top 5 > bottom 0.  This contradicts the source's own
doc comment that `Rectangle::top` is always less than `Rectangle::bottom`. -/
theorem c1_edge_mutators_invert :
    ((Rectangle.new (0, 0) (10, 10)).top_to 5).left_top = (0, 10) ∧
    ((Rectangle.new (0, 0) (10, 10)).top_to 5).right_bottom = (10, 5) ∧
    ¬ ((Rectangle.new (0, 0) (10, 10)).top_to 5).top ≤
        ((Rectangle.new (0, 0) (10, 10)).top_to 5).bottom ∧
    ¬ ((Rectangle.new (0, 0) (10, 10)).left_to 5).left ≤
        ((Rectangle.new (0, 0) (10, 10)).left_to 5).right ∧
    ¬ ((Rectangle.new (0, 0) (10, 10)).bottom_to 5).top ≤
        ((Rectangle.new (0, 0) (10, 10)).bottom_to 5).bottom := by
  decide

/-- C8: `contains` holds exactly when the point is within all four edges
inclusively, `contains_rect` holds exactly when both stored corners of the
inner rectangle are contained, and a rectangle with `left = right` still
contains points on that vertical line. -/
theorem c8_contains_inclusive (r s : Rectangle) (x y : Nat) :
    (r.contains (x, y) = true ↔
      r.left ≤ x ∧ x ≤ r.right ∧ r.top ≤ y ∧ y ≤ r.bottom) ∧
    (r.contains_rect s = true ↔
      r.contains (s.left, s.top) = true ∧
        r.contains (s.right, s.bottom) = true) ∧
    (r.left = r.right → r.top ≤ y → y ≤ r.bottom →
      r.contains (r.left, y) = true) := by
  refine ⟨?_, ?_, ?_⟩
  · simp [Rectangle.contains, and_assoc]
  · simp [Rectangle.contains_rect]
  · intro hx hy hy2
    simp [Rectangle.contains]
    omega

/-- C8 witness: the zero-width rectangle with left = right = 3 contains the
point (3, 2) on its degenerate vertical line. -/
theorem c8_contains_inclusive_witness :
    (Rectangle.mk (3, 1) (3, 5)).contains (3, 2) = true :=
  (c8_contains_inclusive (Rectangle.mk (3, 1) (3, 5))
      (Rectangle.mk (0, 0) (0, 0)) 0 2).2.2 rfl (by decide) (by decide)

/-- C9 counterexample: the claim states the two BitOr implementations are
equal as functions; at operands (Black, Red) the terminal.rs impl packs Red
into the high nibble (16) while the default_impls.rs impl packs it into the
low nibble (1). -/
theorem c9_bitor_counterexample :
    Ansi4.bitor_terminal Ansi4.Black Ansi4.Red = 16 ∧
    Ansi4.bitor_default_impls Ansi4.Black Ansi4.Red = 1 ∧
    Ansi4.bitor_terminal Ansi4.Black Ansi4.Red ≠
      Ansi4.bitor_default_impls Ansi4.Black Ansi4.Red := by
  decide

/-- C9 amended: the two implementations are not equal as functions; they are
transposes of each other — the terminal.rs impl puts `rhs` in the high
nibble where the default_impls.rs impl puts `self` there, so swapping the
operands of one yields the other. -/
theorem c9_bitor_transpose (a b : Ansi4) :
    Ansi4.bitor_terminal a b = Ansi4.bitor_default_impls b a := by
  cases a <;> cases b <;> rfl

/-- C3 counterexample: the claim states the per-cell accessors return `none`
whenever `x ≥ width`, and in particular that an out-of-range `x` never
yields a cell of a different row through the flat index.  On a 2-wide,
2-high terminal with cells 0,1,2,3 the flat accessor at (x = 2, y = 0)
returns cell 2 — the first cell of row 1. -/
theorem c3_flat_index_counterexample :
    Terminal.character 2 [(0 : Nat), 1, 2, 3] 2 0 = some 2 ∧
    ConstantSizeRef.cell [[(0 : Nat), 1], [2, 3]] 2 0 = none := by
  decide

/-- C3 amended: neither accessor can panic (both are total functions built
from checked lookups).  `ConstantSizeRef::cell`/`cell_mut` return `none`
exactly when `x ≥ width` or `y ≥ height`; but the default
`Terminal::character`/`character_mut` return `none` exactly when the flat
index `width * y + x` reaches the buffer size `width * height`, so an
out-of-range `x` whose flat index is still in range yields a cell of a
later row. -/
theorem c3_cell_accessors (α : Type) (width height : Nat) (cells : List α)
    (rows : List (List α)) (x y : Nat)
    (hlen : cells.length = width * height)
    (hrows : rows.length = height)
    (hrow : ∀ row ∈ rows, row.length = width) :
    (Terminal.character width cells x y = none ↔
      width * height ≤ width * y + x) ∧
    (ConstantSizeRef.cell rows x y = none ↔ width ≤ x ∨ height ≤ y) := by
  constructor
  · rw [Terminal.character, List.get?_eq_none, hlen]
  · rw [ConstantSizeRef.cell]
    rcases Nat.lt_or_ge y rows.length with hy | hy
    · rcases List.get?_eq_get hy ▸ Option.some_bind _ _ with h
      rw [List.get?_eq_get hy, Option.some_bind, List.get?_eq_none,
        hrow _ (List.get_mem rows y hy)]
      omega
    · rw [List.get?_eq_none.mpr hy]
      simp only [Option.none_bind, true_iff]
      omega

/-- C3 witness: on a 2-by-2 terminal, the structured accessor rejects
(x = 0, y = 2) and the flat accessor rejects (x = 0, y = 2) as well since
its flat index 4 reaches the buffer size. -/
theorem c3_cell_accessors_witness :
    Terminal.character 2 [(0 : Nat), 1, 2, 3] 0 2 = none ∧
    ConstantSizeRef.cell [[(0 : Nat), 1], [2, 3]] 0 2 = none :=
  ⟨(c3_cell_accessors Nat 2 2 [0, 1, 2, 3] [[0, 1], [2, 3]] 0 2 rfl rfl
      (by decide)).1.mpr (by decide),
   (c3_cell_accessors Nat 2 2 [0, 1, 2, 3] [[0, 1], [2, 3]] 0 2 rfl rfl
      (by decide)).2.mpr (Or.inr (by decide))⟩

/-- C4: the claim states that with active dimensions (w, h) strictly below
the maxima, `characters()` yields exactly the w*h live-window cells in
row-major order.  The code instead re-slices the row slice: on a 4-by-4
backing store rescaled to width 2, height 3, it returns the first two FULL
backing rows — 8 cells including backing columns 2 and 3 — instead of the 6
live-window cells; and with width 3, height 2 the second slice is out of
range, i.e. `characters()` panics. -/
theorem c4_characters_exposes_backing :
    MaxSizeTerminal.characters_method
        (MaxSizeTerminal.mk
          [[(0 : Nat), 1, 2, 3], [10, 11, 12, 13],
            [20, 21, 22, 23], [30, 31, 32, 33]] () (2, 3)) =
      some [0, 1, 2, 3, 10, 11, 12, 13] ∧
    MaxSizeTerminal.live_region
        (MaxSizeTerminal.mk
          [[(0 : Nat), 1, 2, 3], [10, 11, 12, 13],
            [20, 21, 22, 23], [30, 31, 32, 33]] () (2, 3)) =
      [0, 1, 10, 11, 20, 21] ∧
    some [(0 : Nat), 1, 2, 3, 10, 11, 12, 13] ≠ some [0, 1, 10, 11, 20, 21] ∧
    MaxSizeTerminal.characters_method
        (MaxSizeTerminal.mk
          [[(0 : Nat), 1, 2, 3], [10, 11, 12, 13],
            [20, 21, 22, 23], [30, 31, 32, 33]] () (3, 2)) =
      none := by
  decide

/-- C7: `rescale` fails exactly when a requested dimension exceeds its
compile-time maximum; the error payload is the attempted pair unchanged and
the terminal (dimensions, cells and default style alike) is left untouched;
on success only the active dimensions change, to exactly (w, h). -/
theorem c7_rescale (α σ : Type) (MAXW MAXH : Nat) (t : MaxSizeTerminal α σ)
    (w h : Nat) :
    ((MAXW < w ∨ MAXH < h) →
      MaxSizeTerminal.rescale MAXW MAXH t w h = (Except.error (w, h), t)) ∧
    (w ≤ MAXW → h ≤ MAXH →
      MaxSizeTerminal.rescale MAXW MAXH t w h =
        (Except.ok (), { t with dimensions := (w, h) })) := by
  constructor
  · intro hover
    rw [MaxSizeTerminal.rescale]
    rcases hover with hw | hh
    · rw [if_pos hw]
    · rcases Nat.lt_or_ge MAXW w with hw | hw
      · rw [if_pos hw]
      · rw [if_neg (Nat.not_lt.mpr hw), if_pos hh]
  · intro hw hh
    rw [MaxSizeTerminal.rescale, if_neg (Nat.not_lt.mpr hw),
      if_neg (Nat.not_lt.mpr hh)]

/-- C7 witness: a 4-by-4-capacity terminal rejects a rescale to width 5,
returning the pair (5, 2) and the unchanged state, and accepts a rescale to
(3, 2), changing only the dimensions. -/
theorem c7_rescale_witness :
    MaxSizeTerminal.rescale 4 4
        (MaxSizeTerminal.mk [[(0 : Nat)]] () (4, 4)) 5 2 =
      (Except.error (5, 2), MaxSizeTerminal.mk [[(0 : Nat)]] () (4, 4)) ∧
    MaxSizeTerminal.rescale 4 4
        (MaxSizeTerminal.mk [[(0 : Nat)]] () (4, 4)) 3 2 =
      (Except.ok (), MaxSizeTerminal.mk [[(0 : Nat)]] () (3, 2)) :=
  ⟨(c7_rescale Nat Unit 4 4 (MaxSizeTerminal.mk [[(0 : Nat)]] () (4, 4))
      5 2).1 (Or.inl (by decide)),
   (c7_rescale Nat Unit 4 4 (MaxSizeTerminal.mk [[(0 : Nat)]] () (4, 4))
      3 2).2 (by decide) (by decide)⟩

/-- C6: with cell capacity `c = cells.length`, drawing `Text::new(s)` when
`c ≥ len(s)` succeeds and leaves the characters of `s` in order in the first
`len(s)` row-major cells with all later cells unchanged; when `c < len(s)`
it fails with `OutOfBoundsCharacter c`, the first missing enumeration
index. -/
theorem c6_text_draw (σ : Type) (t : Text σ) (cells : List (Cell σ)) :
    (t.text.length ≤ cells.length →
      Text.draw t cells =
        Except.ok (t.text.map (fun ch => Cell.mk ch t.style) ++
          cells.drop t.text.length)) ∧
    (cells.length < t.text.length →
      Text.draw t cells =
        Except.error (Error.OutOfBoundsCharacter cells.length)) := by
  constructor
  · intro h
    exact drawFrom_ok σ t.style t.text cells 0 h
  · intro h
    rw [Text.draw, drawFrom_err σ t.style t.text cells 0 h, Nat.zero_add]

/-- C6 witness: drawing "hi" into a 3-cell terminal writes the two
characters and keeps the third cell; drawing it into a 1-cell terminal
fails with an out-of-bounds character error at index 1. -/
theorem c6_text_draw_witness :
    Text.draw (Text.mk ['h', 'i'] ()) [Cell.mk 'a' (), Cell.mk 'b' (), Cell.mk 'z' ()] =
      Except.ok [Cell.mk 'h' (), Cell.mk 'i' (), Cell.mk 'z' ()] ∧
    Text.draw (Text.mk ['h', 'i'] ()) [Cell.mk 'a' ()] =
      Except.error (Error.OutOfBoundsCharacter 1) :=
  ⟨(c6_text_draw Unit (Text.mk ['h', 'i'] ())
      [Cell.mk 'a' (), Cell.mk 'b' (), Cell.mk 'z' ()]).1 (by decide),
   (c6_text_draw Unit (Text.mk ['h', 'i'] ()) [Cell.mk 'a' ()]).2 (by decide)⟩

/-- C2 counterexample: the claim states `left == (W - w) / 2`; for a
1-character text centered in a 4-wide, 3-high terminal the code places
`left = 4 / 2 - 1 / 2 = 2`, whereas `(4 - 1) / 2 = 1`. -/
theorem c2_centered_left_counterexample :
    (CenteredText.bounding_box_rect (CenteredText.mk ['a'] ())
        (Rectangle.of_size 4 3)).left = 2 ∧
    (4 - 1) / 2 = 1 ∧
    (CenteredText.bounding_box_rect (CenteredText.mk ['a'] ())
        (Rectangle.of_size 4 3)).left ≠ (4 - 1) / 2 := by
  decide

/-- C2 amended: with capped widget size `w = min len W` and
`h = min (divCeil len W) H` (equal to the natural size whenever it fits,
as the claim assumes), the centered bounding box has
`left = W / 2 - w / 2` and `top = H / 2 - h / 2` — which can exceed the
claimed `(W - w) / 2` by one when the terminal dimension is even and the
widget dimension odd (they agree at `W = 57, w = 10`, giving 23) — and its
width and height equal `w` and `h`. -/
theorem c2_centered_box_formula (σ : Type) (t : CenteredText σ) (W H : Nat)
    (hW : 0 < W) :
    (t.bounding_box_rect (Rectangle.of_size W H)).left
        = W / 2 - min t.prompt_text.length W / 2 ∧
    (t.bounding_box_rect (Rectangle.of_size W H)).top
        = H / 2 - min (divCeil t.prompt_text.length W) H / 2 ∧
    (t.bounding_box_rect (Rectangle.of_size W H)).width
        = min t.prompt_text.length W ∧
    (t.bounding_box_rect (Rectangle.of_size W H)).height
        = min (divCeil t.prompt_text.length W) H := by
  rw [bounding_box_rect_eq]
  refine ⟨rfl, rfl, ?_, ?_⟩
  · dsimp only [Rectangle.width, Rectangle.right, Rectangle.left]
    omega
  · dsimp only [Rectangle.height, Rectangle.bottom, Rectangle.top]
    omega

/-- C2 witness: a 3-character text centered in a 5-by-4 terminal gets the
box with left 1, top 2, width 3 and height 1 (here `W / 2 - w / 2` and
`(W - w) / 2` agree). -/
theorem c2_centered_box_formula_witness :
    (CenteredText.bounding_box_rect (CenteredText.mk ['a', 'b', 'c'] ())
        (Rectangle.of_size 5 4)).left = 1 ∧
    (CenteredText.bounding_box_rect (CenteredText.mk ['a', 'b', 'c'] ())
        (Rectangle.of_size 5 4)).top = 2 ∧
    (CenteredText.bounding_box_rect (CenteredText.mk ['a', 'b', 'c'] ())
        (Rectangle.of_size 5 4)).width = 3 ∧
    (CenteredText.bounding_box_rect (CenteredText.mk ['a', 'b', 'c'] ())
        (Rectangle.of_size 5 4)).height = 1 :=
  c2_centered_box_formula Unit (CenteredText.mk ['a', 'b', 'c'] ()) 5 4
    (by decide)

/-- C5 counterexample: the claim states that a centered text whose natural
size exceeds the terminal in either axis fails with an out-of-bounds error
when drawing or resolving its bounding box.  A 2-character text (natural
width 2, exceeding the 1-wide terminal) in a 1-by-3 terminal resolves its
bounding box to `Ok` of the wrapped 1-by-2 box and draws successfully. -/
theorem c5_oversized_draw_counterexample :
    (Rectangle.of_size 1 3).width <
      (CenteredText.mk ['a', 'b'] ()).prompt_text.length ∧
    CenteredText.bounding_box (CenteredText.mk ['a', 'b'] ())
        (Rectangle.of_size 1 3) =
      Except.ok (Rectangle.mk (0, 0) (1, 2)) ∧
    CenteredText.draw (CenteredText.mk ['a', 'b'] ())
        [[Cell.mk ' ' ()], [Cell.mk ' ' ()], [Cell.mk ' ' ()]]
        (Rectangle.of_size 1 3) =
      Except.ok [Cell.mk 'a' (), Cell.mk 'b' ()] :=
  ⟨by decide, by rfl, by rfl⟩

/-- C5 amended: `CenteredText::bounding_box` never errors — it caps its box
to fit the terminal (auto-shrinking the box, never producing a
negative-sized or out-of-bounds rectangle).  Drawing fails — with
`Text`'s `OutOfBoundsCharacter` error at index `W * H` — exactly when the
text length exceeds the terminal's total capacity `W * H`; a text exceeding
only the terminal width but not its capacity wraps and draws
successfully. -/
theorem c5_draw_error_condition (σ : Type) (t : CenteredText σ)
    (grid : List (List (Cell σ))) (W H : Nat) (hW : 0 < W) (hH : 0 < H)
    (hgrid : grid.length = H) (hrow : ∀ row ∈ grid, row.length = W) :
    ((t.bounding_box_rect (Rectangle.of_size W H)).left ≤
        (t.bounding_box_rect (Rectangle.of_size W H)).right ∧
      (t.bounding_box_rect (Rectangle.of_size W H)).right ≤ W ∧
      (t.bounding_box_rect (Rectangle.of_size W H)).top ≤
        (t.bounding_box_rect (Rectangle.of_size W H)).bottom ∧
      (t.bounding_box_rect (Rectangle.of_size W H)).bottom ≤ H) ∧
    (W * H < t.prompt_text.length →
      CenteredText.draw t grid (Rectangle.of_size W H) =
        Except.error (Error.OutOfBoundsCharacter (W * H))) ∧
    (t.prompt_text.length ≤ W * H →
      exceptIsOk (CenteredText.draw t grid (Rectangle.of_size W H)) = true) := by
  have hbox := bounding_box_rect_eq σ t W H
  have hwle : min t.prompt_text.length W ≤ W := Nat.min_le_right _ _
  have hhle : min (divCeil t.prompt_text.length W) H ≤ H := Nat.min_le_right _ _
  have hfits :
      (t.bounding_box_rect (Rectangle.of_size W H)).left ≤
        (t.bounding_box_rect (Rectangle.of_size W H)).right ∧
      (t.bounding_box_rect (Rectangle.of_size W H)).right ≤ W ∧
      (t.bounding_box_rect (Rectangle.of_size W H)).top ≤
        (t.bounding_box_rect (Rectangle.of_size W H)).bottom ∧
      (t.bounding_box_rect (Rectangle.of_size W H)).bottom ≤ H := by
    rw [hbox]
    dsimp only [Rectangle.left, Rectangle.right, Rectangle.top, Rectangle.bottom]
    omega
  have hviewlen :
      (View.cells grid (t.bounding_box_rect (Rectangle.of_size W H))).length =
        min t.prompt_text.length W * min (divCeil t.prompt_text.length W) H := by
    rw [View.cells_length grid _ (by omega) hfits.2.2.1
        (fun row hmem => Nat.le_trans hfits.2.1 (Nat.le_of_eq (hrow row hmem).symm))
        hfits.1]
    rw [hbox]
    dsimp only [Rectangle.width, Rectangle.height, Rectangle.left,
      Rectangle.right, Rectangle.top, Rectangle.bottom]
    congr 1 <;> omega
  refine ⟨hfits, ?_, ?_⟩
  · intro hover
    have hLpos : 0 < t.prompt_text.length := by
      have : 0 < W * H := Nat.mul_pos hW hH
      omega
    have hwW : min t.prompt_text.length W = W := by
      have : W ≤ t.prompt_text.length := by
        have : W * 1 ≤ W * H := Nat.mul_le_mul_left W hH
        omega
      exact min_eq_right this
    have hhH : min (divCeil t.prompt_text.length W) H = H :=
      min_eq_right
        (Nat.le_of_lt (lt_divCeil_of_mul_lt t.prompt_text.length W H hW hover))
    unfold CenteredText.draw CenteredText.bounding_box Text.draw
    dsimp only
    rw [drawFrom_err σ t.style t.prompt_text _ 0
        (by rw [hviewlen, hwW, hhH]; omega)]
    rw [hviewlen, hwW, hhH, Nat.zero_add]
  · intro hle
    have harea : t.prompt_text.length ≤
        min t.prompt_text.length W * min (divCeil t.prompt_text.length W) H := by
      rcases Nat.eq_zero_or_pos t.prompt_text.length with hz | hLpos
      · omega
      · rcases le_or_lt t.prompt_text.length W with hLW | hWL
        · have hw1 : min t.prompt_text.length W = t.prompt_text.length :=
            min_eq_left hLW
          have hh1 : 0 < min (divCeil t.prompt_text.length W) H :=
            lt_min (divCeil_pos _ _ hLpos hW) hH
          calc t.prompt_text.length
              = t.prompt_text.length * 1 := (Nat.mul_one _).symm
            _ ≤ min t.prompt_text.length W *
                  min (divCeil t.prompt_text.length W) H := by
                rw [hw1]
                exact Nat.mul_le_mul_left _ hh1
        · have hw1 : min t.prompt_text.length W = W :=
            min_eq_right (Nat.le_of_lt hWL)
          rcases le_or_lt (divCeil t.prompt_text.length W) H with hdh | hhd
          · have hh1 : min (divCeil t.prompt_text.length W) H =
                divCeil t.prompt_text.length W := min_eq_left hdh
            rw [hw1, hh1]
            exact le_mul_divCeil _ _ hW
          · have hh1 : min (divCeil t.prompt_text.length W) H = H :=
              min_eq_right (Nat.le_of_lt hhd)
            rw [hw1, hh1]
            exact hle
    unfold CenteredText.draw CenteredText.bounding_box Text.draw
    dsimp only
    rw [drawFrom_ok σ t.style t.prompt_text _ 0 (by rw [hviewlen]; exact harea)]
    rfl

/-- C5 witness: a 2-character text in a 1-by-1 terminal (capacity 1 below
the text length 2) fails with `OutOfBoundsCharacter 1`, while the same text
in the 1-by-3 terminal (capacity 3) draws. -/
theorem c5_draw_error_condition_witness :
    CenteredText.draw (CenteredText.mk ['a', 'b'] ()) [[Cell.mk ' ' ()]]
        (Rectangle.of_size 1 1) =
      Except.error (Error.OutOfBoundsCharacter 1) ∧
    exceptIsOk (CenteredText.draw (CenteredText.mk ['a', 'b'] ())
        [[Cell.mk ' ' ()], [Cell.mk ' ' ()], [Cell.mk ' ' ()]]
        (Rectangle.of_size 1 3)) = true :=
  ⟨(c5_draw_error_condition Unit (CenteredText.mk ['a', 'b'] ())
      [[Cell.mk ' ' ()]] 1 1 (by decide) (by decide) (by decide)
      (by decide)).2.1 (by decide),
   (c5_draw_error_condition Unit (CenteredText.mk ['a', 'b'] ())
      [[Cell.mk ' ' ()], [Cell.mk ' ' ()], [Cell.mk ' ' ()]] 1 3 (by decide)
      (by decide) (by decide) (by decide)).2.2 (by decide)⟩

/-- C10: `mouse_relative_to` maps a cell click at (x, y) inside or beyond
the rectangle's top-left corner to the click translated by (left, top),
collapses a click strictly left of or above the rectangle to `NoInfo`, and
passes every non-click variant through unchanged. -/
theorem c10_mouse_relative_to (rect : Rectangle) (u : UpdateInfo)
    (x y : Nat) (b : MouseButton) :
    (rect.left ≤ x → rect.top ≤ y →
      UpdateInfo.mouse_relative_to (UpdateInfo.CellClicked x y b) rect =
        UpdateInfo.CellClicked (x - rect.left) (y - rect.top) b) ∧
    ((x < rect.left ∨ y < rect.top) →
      UpdateInfo.mouse_relative_to (UpdateInfo.CellClicked x y b) rect =
        UpdateInfo.NoInfo) ∧
    ((∀ x2 y2 b2, u ≠ UpdateInfo.CellClicked x2 y2 b2) →
      UpdateInfo.mouse_relative_to u rect = u) := by
  refine ⟨?_, ?_, ?_⟩
  · intro hx hy
    rw [UpdateInfo.mouse_relative_to, checkedSub, if_pos hx, checkedSub,
      if_pos hy]
  · intro hor
    rcases hor with hx | hy
    · rw [UpdateInfo.mouse_relative_to, checkedSub,
        if_neg (Nat.not_le.mpr hx)]
    · rw [UpdateInfo.mouse_relative_to, checkedSub]
      rcases Nat.lt_or_ge x rect.left with hx | hx
      · rw [if_neg (Nat.not_le.mpr hx)]
      · rw [if_pos hx, checkedSub, if_neg (Nat.not_le.mpr hy)]
  · intro hnc
    cases u with
    | CellClicked x2 y2 b2 => exact absurd rfl (hnc x2 y2 b2)
    | KeyboardCharacter c s => rfl
    | KeyboardInput c s => rfl
    | TimeDelta d => rfl
    | TerminalResized => rfl
    | NoInfo => rfl

/-- C10 witness: relative to the rectangle (2,1)-(9,9), a click at (5, 4)
becomes a click at (3, 3), a click at (1, 4) collapses to `NoInfo`, and a
keyboard event passes through unchanged. -/
theorem c10_mouse_relative_to_witness :
    UpdateInfo.mouse_relative_to
        (UpdateInfo.CellClicked 5 4 MouseButton.Primary)
        (Rectangle.mk (2, 1) (9, 9)) =
      UpdateInfo.CellClicked 3 3 MouseButton.Primary ∧
    UpdateInfo.mouse_relative_to
        (UpdateInfo.CellClicked 1 4 MouseButton.Primary)
        (Rectangle.mk (2, 1) (9, 9)) =
      UpdateInfo.NoInfo ∧
    UpdateInfo.mouse_relative_to
        (UpdateInfo.KeyboardCharacter 'q' KeyState.KeyDown)
        (Rectangle.mk (2, 1) (9, 9)) =
      UpdateInfo.KeyboardCharacter 'q' KeyState.KeyDown :=
  ⟨(c10_mouse_relative_to (Rectangle.mk (2, 1) (9, 9)) UpdateInfo.NoInfo 5 4
      MouseButton.Primary).1 (by decide) (by decide),
   (c10_mouse_relative_to (Rectangle.mk (2, 1) (9, 9)) UpdateInfo.NoInfo 1 4
      MouseButton.Primary).2.1 (Or.inl (by decide)),
   (c10_mouse_relative_to (Rectangle.mk (2, 1) (9, 9))
      (UpdateInfo.KeyboardCharacter 'q' KeyState.KeyDown) 1 4
      MouseButton.Primary).2.2 (fun x2 y2 b2 h => UpdateInfo.noConfusion h)⟩

end Tuit
